import Mathlib

/-!
Verification of the HTTP build step in
`master/buildbot/steps/http_oldstyle.py`.

The step issues one HTTP request through a process-wide shared session,
renders a transcript of the request and every response hop into log
streams, and classifies the outcome from the final status code.

The embedding is shallow: the step's interaction with the logging sink is
recorded as a list of `LogEvent`s, the HTTP transport's answer is an input
(`ReqResult`), and the imperative `run` coroutine becomes a pure function
from the step configuration and the transport answer to the emitted events,
the step result, the updated description and the params value passed to the
transport.  Python string comparison (used by `sorted`) is embedded as
code-point lexicographic comparison on the character list.
-/

namespace HttpOldstyle

/-- Output channels of one named log: `addHeader`, `addStdout`, `addStderr`
write to the header, normal-output and error-output channel respectively. -/
inductive Channel
  | header
  | stdout
  | stderr
deriving DecidableEq

/-- One interaction with the logging sink: opening a named log (`addLog`),
appending text to a channel of a named log, or finishing a log. -/
inductive LogEvent
  | addLog (name : String)
  | write (log : String) (ch : Channel) (txt : String)
  | finish (log : String)
deriving DecidableEq

/-- The event `log.addHeader txt` on the primary log named "log". -/
def addHeader (txt : String) : LogEvent :=
  LogEvent.write "log" Channel.header txt

/-- The event `log.addStdout txt` on the primary log named "log". -/
def addStdout (txt : String) : LogEvent :=
  LogEvent.write "log" Channel.stdout txt

/-- The event `log.addStderr txt` on the primary log named "log". -/
def addStderr (txt : String) : LogEvent :=
  LogEvent.write "log" Channel.stderr txt

/-- One HTTP response hop (a redirect hop or the final response), as the
fields of the `requests` response object that `log_response` reads:
`response.url`, `response.status_code`, `response.request.headers`,
`response.headers`, `response.text`. -/
structure Hop where
  url : String
  status_code : Nat
  request_headers : List (String × String)
  response_headers : List (String × String)
  text : String
deriving DecidableEq

/-- The `data` request option: either a Python dict (an association list in
iteration order) or a plain string. -/
inductive ReqData
  | dict (kvs : List (String × String))
  | str (s : String)
deriving DecidableEq

/-- What `self.session.request` produces: either a
`requests.exceptions.ConnectionError` carrying its message, or a final
response `final` preceded by the redirect chain `history`
(`r.history`, oldest first). -/
inductive ReqResult
  | connectionError (msg : String)
  | ok (history : List Hop) (final : Hop)
deriving DecidableEq

/-- Step configuration after `HTTPStep.__init__`: the validated method, the
url, and the request options relevant to the transcript.  A Python dict
valued option is an association list in insertion order; `none` is Python
`None` (the default for every option in `__init__`).  The remaining
`requestsParams` options (json, headers, cookies, files, auth, timeout,
allow_redirects, proxies, hooks, stream, verify, cert) are opaque
pass-through values never inspected by `run`, so they are omitted. -/
structure HTTPStepCfg where
  method : String
  url : String
  params : Option (List (String × String))
  data : Option ReqData
deriving DecidableEq

/-- Step results from `buildbot.process.buildstep`. -/
inductive StepResult
  | SUCCESS
  | FAILURE
deriving DecidableEq

/-- The value `requests.codes.ok`, which is the integer 200. -/
def requestsCodesOk : Nat := 200

/-! ### Python string comparison

`sorted(params.items(), key=lambda x: x[0])` compares the string keys with
Python's `<`, which is lexicographic on code points.  `pyStrLt` embeds that
comparison on the underlying character lists. -/

/-- Python string less-than: lexicographic comparison by code point. -/
def pyStrLt : List Char → List Char → Bool
  | _, [] => false
  | [], _ :: _ => true
  | a :: as, b :: bs =>
    if a.toNat < b.toNat then true
    else if b.toNat < a.toNat then false
    else pyStrLt as bs

/-- Strict key order used to state that rendered keys ascend strictly. -/
def pyLt (a b : String) : Prop := pyStrLt a.data b.data = true

/-- Non-strict order on strings derived from `pyStrLt`, as Python's sort
uses it: `a` may precede `b` exactly when `b` is not less than `a`. -/
def pyLe (a b : String) : Prop := pyStrLt b.data a.data = false

instance : DecidableRel pyLt := fun a b =>
  inferInstanceAs (Decidable (pyStrLt a.data b.data = true))

instance : DecidableRel pyLe := fun a b =>
  inferInstanceAs (Decidable (pyStrLt b.data a.data = false))

/-- Order on key/value pairs comparing only the keys, as the sort key
`lambda x: x[0]` does. -/
def keyLE (p q : String × String) : Prop := pyLe p.1 q.1

/-- Strict variant of `keyLE`. -/
def keyLT (p q : String × String) : Prop := pyLt p.1 q.1

instance : DecidableRel keyLE := fun p q =>
  inferInstanceAs (Decidable (pyLe p.1 q.1))

instance : DecidableRel keyLT := fun p q =>
  inferInstanceAs (Decidable (pyLt p.1 q.1))

theorem pyStrLt_nil_right : ∀ a, pyStrLt a [] = false
  | [] => rfl
  | _ :: _ => rfl

theorem char_eq_of_toNat_eq {a b : Char} (h : a.toNat = b.toNat) : a = b :=
  Char.ofNat_toNat a ▸ Char.ofNat_toNat b ▸ congrArg Char.ofNat h

theorem pyStrLt_asymm : ∀ a b, pyStrLt a b = true → pyStrLt b a = false
  | a, [], h => absurd h (by simp [pyStrLt_nil_right a])
  | [], _ :: _, _ => pyStrLt_nil_right _
  | a :: as, b :: bs, h => by
    by_cases h₁ : a.toNat < b.toNat
    · have h₂ : ¬ b.toNat < a.toNat := by omega
      simp [pyStrLt, h₁, h₂]
    · by_cases h₂ : b.toNat < a.toNat
      · exact absurd h (by simp [pyStrLt, h₁, h₂])
      · have hrec := pyStrLt_asymm as bs (by simpa [pyStrLt, h₁, h₂] using h)
        simp [pyStrLt, h₁, h₂, hrec]

theorem pyStrLt_conn : ∀ a b, pyStrLt a b = false → pyStrLt b a = false → a = b
  | [], [], _, _ => rfl
  | [], _ :: _, h, _ => by simp [pyStrLt] at h
  | _ :: _, [], _, h => by simp [pyStrLt] at h
  | a :: as, b :: bs, h, h' => by
    by_cases h₁ : a.toNat < b.toNat
    · exact absurd h (by simp [pyStrLt, h₁])
    · by_cases h₂ : b.toNat < a.toNat
      · exact absurd h' (by simp [pyStrLt, h₂])
      · have hab : a = b := char_eq_of_toNat_eq (by omega)
        have hrec := pyStrLt_conn as bs (by simpa [pyStrLt, h₁, h₂] using h)
          (by simpa [pyStrLt, h₁, h₂] using h')
        rw [hab, hrec]

theorem pyStrLt_trans : ∀ a b c, pyStrLt a b = true → pyStrLt b c = true →
    pyStrLt a c = true
  | _, b, [], _, h' => absurd h' (by simp [pyStrLt_nil_right b])
  | a, [], _ :: _, h, _ => absurd h (by simp [pyStrLt_nil_right a])
  | [], _ :: _, _ :: _, _, _ => rfl
  | a :: as, b :: bs, c :: cs, h, h' => by
    by_cases h₁ : a.toNat < b.toNat
    · by_cases h₂ : b.toNat < c.toNat
      · have : a.toNat < c.toNat := by omega
        simp [pyStrLt, this]
      · by_cases h₃ : c.toNat < b.toNat
        · exact absurd h' (by simp [pyStrLt, h₂, h₃])
        · have : a.toNat < c.toNat := by omega
          simp [pyStrLt, this]
    · by_cases h₂ : b.toNat < a.toNat
      · exact absurd h (by simp [pyStrLt, h₁, h₂])
      · by_cases h₃ : b.toNat < c.toNat
        · have : a.toNat < c.toNat := by omega
          simp [pyStrLt, this]
        · by_cases h₄ : c.toNat < b.toNat
          · exact absurd h' (by simp [pyStrLt, h₃, h₄])
          · have hrec := pyStrLt_trans as bs cs (by simpa [pyStrLt, h₁, h₂] using h)
              (by simpa [pyStrLt, h₃, h₄] using h')
            have hac : ¬ a.toNat < c.toNat := by omega
            have hca : ¬ c.toNat < a.toNat := by omega
            simp [pyStrLt, hac, hca, hrec]

instance : IsTotal (String × String) keyLE :=
  ⟨fun p q => by
    by_cases h : pyStrLt q.1.data p.1.data = true
    · exact Or.inr (pyStrLt_asymm _ _ h)
    · exact Or.inl (by simpa [keyLE, pyLe] using h)⟩

instance : IsTrans (String × String) keyLE :=
  ⟨fun p q r h₁ h₂ => by
    simp only [keyLE, pyLe] at h₁ h₂ ⊢
    by_cases hlt : pyStrLt r.1.data p.1.data = true
    · by_cases hpq : pyStrLt p.1.data q.1.data = true
      · exact absurd (pyStrLt_trans _ _ _ hlt hpq) (by simp [h₂])
      · have heq : p.1.data = q.1.data := pyStrLt_conn _ _ (by simpa using hpq) h₁
        rw [heq] at hlt
        exact absurd hlt (by simp [h₂])
    · simpa using hlt⟩

instance : IsAntisymm (String × String) keyLT :=
  ⟨fun p q h₁ h₂ => absurd (pyStrLt_asymm _ _ h₁) (by simpa [keyLT, pyLt] using h₂)⟩

/-- The embedding of `sorted(m.items(), key=lambda x: x[0])`: the pairs of
the mapping sorted (stably) in ascending key order. -/
def sortByKey (m : List (String × String)) : List (String × String) :=
  List.insertionSort keyLE m

/-- One rendered key/value line, `'\t{}: {}\n'.format(k, v)`. -/
def kvLine (kv : String × String) : String :=
  "\t" ++ kv.1 ++ ": " ++ kv.2 ++ "\n"

/-- The params value passed to `self.session.request`: either the original
mapping (when the sorting branch was not taken) or the sorted list of pairs
that replaced it in `requestkwargs`. -/
inductive SentParams
  | mapping (m : List (String × String))
  | sortedList (l : List (String × String))
deriving DecidableEq

/-- The Parameters block of `run`.  Follows the source: the block is
guarded by the truthiness of `self.params`, and the key/value lines are
rendered from the sorted pair list. -/
def paramsEvents (cfg : HTTPStepCfg) : List LogEvent :=
  match cfg.params with
  | none => []
  | some m =>
    if m.isEmpty then []
    else addHeader "Parameters:\n" :: (sortByKey m).map (fun kv => addHeader (kvLine kv))

/-- The params value of `requestkwargs` when the request is made: `sorted`
replaces the original mapping only when `self.params` and the stored
params value are truthy, so an absent params stays absent and an empty
mapping is forwarded unchanged. -/
def sentParamsOf (cfg : HTTPStepCfg) : Option SentParams :=
  match cfg.params with
  | none => none
  | some m =>
    if m.isEmpty then some (SentParams.mapping m)
    else some (SentParams.sortedList (sortByKey m))

/-- The Data block of `run`: guarded by the truthiness of the data value;
a dict renders one line per pair in iteration order, any other value
renders as a single raw line. -/
def dataSection (cfg : HTTPStepCfg) : List LogEvent :=
  match cfg.data with
  | none => []
  | some (ReqData.dict kvs) =>
    if kvs.isEmpty then []
    else addHeader "Data:\n" :: kvs.map (fun kv => addHeader (kvLine kv))
  | some (ReqData.str s) =>
    if s.isEmpty then []
    else [addHeader "Data:\n", addHeader ("\t" ++ s ++ "\n")]

/-- Events of `run` before the request is attempted: opening the primary
log, the Performing header, the Parameters block and the Data block. -/
def preEvents (cfg : HTTPStepCfg) : List LogEvent :=
  LogEvent.addLog "log"
  :: addHeader ("Performing " ++ cfg.method ++ " request to " ++ cfg.url ++ "\n")
  :: (paramsEvents cfg ++ dataSection cfg)

/-- The Status line of `log_response`: written with `addStdout` when the
status code equals `requests.codes.ok`, with `addStderr` otherwise. -/
def statusLineEvent (r : Hop) : LogEvent :=
  if r.status_code = requestsCodesOk
  then addStdout ("Status: " ++ toString r.status_code ++ "\n")
  else addStderr ("Status: " ++ toString r.status_code ++ "\n")

/-- The events of `HTTPStep.log_response` for one response hop: the request
headers, the URL line, the Status line, the response headers, the content
block, and the raw body appended to a newly opened log named "content". -/
def log_response (r : Hop) : List LogEvent :=
  addHeader "Request Header:\n"
  :: (r.request_headers.map (fun kv => addHeader (kvLine kv))
    ++ [addStdout ("URL: " ++ r.url ++ "\n")]
    ++ [statusLineEvent r]
    ++ [addHeader "Response Header:\n"]
    ++ r.response_headers.map (fun kv => addHeader (kvLine kv))
    ++ [addStdout (" ------ Content ------\n" ++ r.text)]
    ++ [LogEvent.addLog "content", LogEvent.write "content" Channel.stdout r.text])

/-- The line `'='` repeated 60 times followed by a newline, written between
hop sections. -/
def ruleLine : String := String.mk (List.replicate 60 '=') ++ "\n"

/-- The header line announcing the redirect count. -/
def redirectedLine (n : Nat) : String :=
  "\nRedirected " ++ toString n ++ " times:\n\n"

/-- What `HTTPStep.run` surfaces: the log events in order, the step result,
the updated `descriptionDone` (`none` when the method left it untouched),
and the params value that was passed to the transport. -/
structure RunOutput where
  events : List LogEvent
  result : StepResult
  descriptionDone : Option String
  sentParams : Option SentParams
deriving DecidableEq

/-- The embedding of `HTTPStep.run`, given the step configuration and the
transport's answer `res`.  A `ConnectionError` is caught: one stderr line
is written and the step returns FAILURE with no Status line and no
description update.  Otherwise the redirect chain and the final response
are logged, the log is finished, `descriptionDone` is set to the
Status code string and the result is SUCCESS exactly when the final status
code is below 400. -/
def run (cfg : HTTPStepCfg) (res : ReqResult) : RunOutput :=
  match res with
  | ReqResult.connectionError e =>
    { events := preEvents cfg
        ++ [addStderr ("An exception occurred while performing the request: " ++ e)]
      result := StepResult.FAILURE
      descriptionDone := none
      sentParams := sentParamsOf cfg }
  | ReqResult.ok history r =>
    { events := preEvents cfg
        ++ (if history.isEmpty then []
            else addStdout (redirectedLine history.length)
              :: history.flatMap (fun rr => log_response rr ++ [addStdout ruleLine]))
        ++ log_response r
        ++ [LogEvent.finish "log"]
      result := if r.status_code < 400 then StepResult.SUCCESS else StepResult.FAILURE
      descriptionDone := some ("Status code: " ++ toString r.status_code)
      sentParams := sentParamsOf cfg }

/-- The embedding of `HTTPStep.__init__` method validation: the method must
be one of the six known verbs, otherwise `config.error` rejects the step at
definition time with the given message.  (The `txrequests` availability
check is an environment concern outside the model.) -/
def initStep (url method : String) (params : Option (List (String × String)))
    (data : Option ReqData) : Except String HTTPStepCfg :=
  if method ∈ (["POST", "GET", "PUT", "DELETE", "HEAD", "OPTIONS"] : List String)
  then Except.ok { method := method, url := url, params := params, data := data }
  else Except.error ("Wrong method given: '" ++ method ++ "' is not known")

/-! ### The module-level shared session -/

/-- The module-level state around the global `_session`: the stored session
(identified by a number, `none` embeds Python `None`), a supply of fresh
session identities, the count of registered before-shutdown triggers, and
the identities of sessions that have been closed. -/
structure SessionState where
  session : Option Nat
  nextId : Nat
  shutdownTriggers : Nat
  closedSessions : List Nat
deriving DecidableEq

/-- The embedding of `getSession`: when no session is stored a fresh
`txrequests.Session()` is constructed, stored, and a before-shutdown
trigger for `closeSession` is registered; the stored session is returned. -/
def getSession (st : SessionState) : Nat × SessionState :=
  match st.session with
  | none =>
    (st.nextId,
     { session := some st.nextId
       nextId := st.nextId + 1
       shutdownTriggers := st.shutdownTriggers + 1
       closedSessions := st.closedSessions })
  | some s => (s, st)

/-- The embedding of `setSession`: replaces the stored session. -/
def setSession (s : Option Nat) (st : SessionState) : SessionState :=
  { st with session := s }

/-- The embedding of `closeSession`: when a session is stored it is closed
and the stored session becomes `None`. -/
def closeSession (st : SessionState) : SessionState :=
  match st.session with
  | none => st
  | some s =>
    { st with session := none, closedSessions := st.closedSessions ++ [s] }

/-! ### Helper lemmas -/

/-- Two strings differ when they differ at the head character. -/
theorem ne_of_head {s t : String} (a b : Char) (hs : s.data.head? = some a)
    (ht : t.data.head? = some b) (hab : a ≠ b) : s ≠ t := by
  intro h
  rw [h, ht] at hs
  exact hab (Option.some.inj hs).symm

/-- Two strings differ when they differ at the second character. -/
theorem ne_of_second {s t : String} (a b : Char) (hs : s.data.get? 1 = some a)
    (ht : t.data.get? 1 = some b) (hab : a ≠ b) : s ≠ t := by
  intro h
  rw [h, ht] at hs
  exact hab (Option.some.inj hs).symm

theorem paramsEvents_shape (cfg : HTTPStepCfg) :
    ∀ e ∈ paramsEvents cfg, ∃ t, e = addHeader t := by
  intro e he
  unfold paramsEvents at he
  split at he
  · simp at he
  · split at he
    · simp at he
    · rcases List.mem_cons.mp he with rfl | hmem
      · exact ⟨_, rfl⟩
      · rcases List.mem_map.mp hmem with ⟨kv, _, rfl⟩
        exact ⟨_, rfl⟩

theorem dataSection_shape (cfg : HTTPStepCfg) :
    ∀ e ∈ dataSection cfg, ∃ t, e = addHeader t := by
  intro e he
  unfold dataSection at he
  split at he
  · simp at he
  · split at he
    · simp at he
    · rcases List.mem_cons.mp he with rfl | hmem
      · exact ⟨_, rfl⟩
      · rcases List.mem_map.mp hmem with ⟨kv, _, rfl⟩
        exact ⟨_, rfl⟩
  · split at he
    · simp at he
    · rcases List.mem_cons.mp he with rfl | hmem
      · exact ⟨_, rfl⟩
      · rcases List.mem_singleton.mp hmem with rfl
        exact ⟨_, rfl⟩

/-- Every event written before the request is attempted is either a log
opening or a header-channel line on the primary log. -/
theorem preEvents_shape (cfg : HTTPStepCfg) :
    ∀ e ∈ preEvents cfg, (∃ n, e = LogEvent.addLog n) ∨ (∃ t, e = addHeader t) := by
  intro e he
  unfold preEvents at he
  simp only [List.mem_cons, List.mem_append] at he
  rcases he with rfl | rfl | he | he
  · exact Or.inl ⟨_, rfl⟩
  · exact Or.inr ⟨_, rfl⟩
  · exact Or.inr (paramsEvents_shape cfg e he)
  · exact Or.inr (dataSection_shape cfg e he)

theorem statusLineEvent_mem (r : Hop) : statusLineEvent r ∈ log_response r := by
  unfold log_response
  simp

/-- A normal-output line whose text is none of the three stdout texts of a
hop section does not occur in that section. -/
theorem addStdout_not_mem_log_response (r : Hop) (t : String)
    (hU : t ≠ "URL: " ++ r.url ++ "\n")
    (hS : t ≠ "Status: " ++ toString r.status_code ++ "\n")
    (hC : t ≠ " ------ Content ------\n" ++ r.text) :
    addStdout t ∉ log_response r := by
  intro h
  unfold log_response statusLineEvent at h
  by_cases hok : r.status_code = requestsCodesOk <;>
    simp_all [addStdout, addHeader, addStderr]

/-- An error-output line whose text is not the Status text of a hop does
not occur in that hop's section. -/
theorem addStderr_not_mem_log_response (r : Hop) (t : String)
    (hS : t ≠ "Status: " ++ toString r.status_code ++ "\n") :
    addStderr t ∉ log_response r := by
  intro h
  unfold log_response statusLineEvent at h
  by_cases hok : r.status_code = requestsCodesOk <;>
    simp_all [addStdout, addHeader, addStderr]

/-- A header line whose text is neither of the two header titles nor a
key/value line does not occur in a hop's section. -/
theorem addHeader_not_mem_log_response (r : Hop) (t : String)
    (hReq : t ≠ "Request Header:\n") (hResp : t ≠ "Response Header:\n")
    (hkv : ∀ kv : String × String, t ≠ kvLine kv) :
    addHeader t ∉ log_response r := by
  intro h
  have hkv' : ∀ a b : String, ¬ kvLine (a, b) = t := fun a b hh => hkv (a, b) hh.symm
  unfold log_response statusLineEvent at h
  by_cases hok : r.status_code = requestsCodesOk <;>
    simp_all [addStdout, addHeader, addStderr]

/-- When the status code equals `requests.codes.ok`, the hop section
contains no error-output line at all. -/
theorem no_stderr_in_log_response_of_ok (r : Hop)
    (hok : r.status_code = requestsCodesOk) (t : String) :
    addStderr t ∉ log_response r := by
  intro h
  unfold log_response statusLineEvent at h
  simp_all [addStdout, addHeader, addStderr]

/-- When the status code differs from `requests.codes.ok`, the Status text
is not written to the normal-output channel. -/
theorem status_stdout_not_mem_of_not_ok (r : Hop)
    (hok : r.status_code ≠ requestsCodesOk) :
    addStdout ("Status: " ++ toString r.status_code ++ "\n") ∉ log_response r := by
  have hU : ("Status: " ++ toString r.status_code ++ "\n") ≠ "URL: " ++ r.url ++ "\n" :=
    ne_of_head 'S' 'U' rfl rfl (by decide)
  have hC : ("Status: " ++ toString r.status_code ++ "\n")
      ≠ " ------ Content ------\n" ++ r.text :=
    ne_of_head 'S' ' ' rfl rfl (by decide)
  intro h
  unfold log_response statusLineEvent at h
  rw [if_neg hok] at h
  simp_all [addStdout, addHeader, addStderr]

/-- Boolean test for an error-output write. -/
def isStderrWrite : LogEvent → Bool := fun e =>
  match e with
  | LogEvent.write _ Channel.stderr _ => true
  | _ => false

theorem filter_stderr_preEvents (cfg : HTTPStepCfg) :
    (preEvents cfg).filter isStderrWrite = [] := by
  rw [List.filter_eq_nil_iff]
  intro e he
  rcases preEvents_shape cfg e he with ⟨n, rfl⟩ | ⟨t, rfl⟩ <;>
    simp [isStderrWrite, addHeader]

/-- Case analysis for membership in the event trace of a completed run. -/
theorem run_ok_events_cases (cfg : HTTPStepCfg) (history : List Hop) (r : Hop)
    (x : LogEvent) (hx : x ∈ (run cfg (ReqResult.ok history r)).events) :
    x ∈ preEvents cfg
    ∨ (history ≠ [] ∧ x = addStdout (redirectedLine history.length))
    ∨ (∃ rr ∈ history, x ∈ log_response rr)
    ∨ (history ≠ [] ∧ x = addStdout ruleLine)
    ∨ x ∈ log_response r
    ∨ x = LogEvent.finish "log" := by
  have hx' : x ∈ ((preEvents cfg
      ++ (if history.isEmpty then []
          else addStdout (redirectedLine history.length)
            :: history.flatMap (fun rr => log_response rr ++ [addStdout ruleLine])))
      ++ log_response r) ++ [LogEvent.finish "log"] := by
    simpa only [run] using hx
  rcases List.mem_append.mp hx' with hx1 | hfin
  · rcases List.mem_append.mp hx1 with hx2 | hlast
    · rcases List.mem_append.mp hx2 with hpre | hred
      · exact Or.inl hpre
      · by_cases hh : history.isEmpty
        · rw [if_pos hh] at hred
          simp at hred
        · rw [if_neg hh] at hred
          have hne : history ≠ [] := fun hemp => hh (by rw [hemp]; rfl)
          rcases List.mem_cons.mp hred with rfl | hflat
          · exact Or.inr (Or.inl ⟨hne, rfl⟩)
          · rcases List.mem_flatMap.mp hflat with ⟨rr, hrr, hm⟩
            rcases List.mem_append.mp hm with hsec | hrule
            · exact Or.inr (Or.inr (Or.inl ⟨rr, hrr, hsec⟩))
            · exact Or.inr (Or.inr (Or.inr (Or.inl ⟨hne, List.mem_singleton.mp hrule⟩)))
    · exact Or.inr (Or.inr (Or.inr (Or.inr (Or.inl hlast))))
  · exact Or.inr (Or.inr (Or.inr (Or.inr (Or.inr (List.mem_singleton.mp hfin)))))

/-! ### Claim C1 -/

/-- C1: for every completed request, the step result is SUCCESS exactly
when the final status code is below 400 (FAILURE exactly when it is 400 or
above), and the step description becomes the string "Status code: "
followed by the final response's status code. -/
theorem run_outcome_classification (cfg : HTTPStepCfg) (history : List Hop) (r : Hop) :
    ((run cfg (ReqResult.ok history r)).result = StepResult.SUCCESS ↔ r.status_code < 400)
    ∧ ((run cfg (ReqResult.ok history r)).result = StepResult.FAILURE ↔ 400 ≤ r.status_code)
    ∧ (run cfg (ReqResult.ok history r)).descriptionDone
        = some ("Status code: " ++ toString r.status_code) := by
  refine ⟨?_, ?_, rfl⟩
  all_goals
    show (if r.status_code < 400 then StepResult.SUCCESS else StepResult.FAILURE) = _ ↔ _
    by_cases h : r.status_code < 400
  all_goals simp [h]
  all_goals omega

/-- Witness for C1, the end-to-end example: a GET answered with status 200
and body "hi" yields SUCCESS and the description "Status code: 200". -/
theorem run_outcome_classification_witness :
    (run (HTTPStepCfg.mk "GET" "http://example.test/ok" none none)
        (ReqResult.ok [] (Hop.mk "http://example.test/ok" 200 [] [] "hi"))).result
      = StepResult.SUCCESS
    ∧ (run (HTTPStepCfg.mk "GET" "http://example.test/ok" none none)
        (ReqResult.ok [] (Hop.mk "http://example.test/ok" 200 [] [] "hi"))).descriptionDone
      = some "Status code: 200" := by
  have h := run_outcome_classification
    (HTTPStepCfg.mk "GET" "http://example.test/ok" none none) []
    (Hop.mk "http://example.test/ok" 200 [] [] "hi")
  refine ⟨h.1.mpr (by decide), ?_⟩
  have h2 := h.2.2
  rw [show ("Status code: " ++ toString (Hop.mk "http://example.test/ok" 200 [] [] "hi").status_code)
      = "Status code: 200" from by decide] at h2
  exact h2

/-! ### Claim C5 -/

/-- C5: constructing a step with method GET, POST, PUT, DELETE, HEAD or
OPTIONS succeeds and stores the given fields; any other method string is
rejected at step-definition time with the configuration error message. -/
theorem init_method_validation (url m : String)
    (p : Option (List (String × String))) (d : Option ReqData) :
    (m = "GET" ∨ m = "POST" ∨ m = "PUT" ∨ m = "DELETE" ∨ m = "HEAD" ∨ m = "OPTIONS" →
      initStep url m p d = Except.ok { method := m, url := url, params := p, data := d })
    ∧ (m ≠ "GET" → m ≠ "POST" → m ≠ "PUT" → m ≠ "DELETE" → m ≠ "HEAD" → m ≠ "OPTIONS" →
      initStep url m p d
        = Except.error ("Wrong method given: '" ++ m ++ "' is not known")) := by
  constructor
  · intro h
    unfold initStep
    rcases h with rfl | rfl | rfl | rfl | rfl | rfl <;> simp
  · intro h1 h2 h3 h4 h5 h6
    unfold initStep
    rw [if_neg]
    simp only [List.mem_cons, List.not_mem_nil, or_false]
    intro h
    rcases h with h | h | h | h | h | h <;> simp_all

/-- Witness for C5 at the concrete methods GET and PATCH. -/
theorem init_method_validation_witness :
    initStep "http://x" "GET" none none
        = Except.ok { method := "GET", url := "http://x", params := none, data := none }
    ∧ initStep "http://x" "PATCH" none none
        = Except.error ("Wrong method given: '" ++ "PATCH" ++ "' is not known") := by
  refine ⟨(init_method_validation "http://x" "GET" none none).1 (Or.inl rfl), ?_⟩
  exact (init_method_validation "http://x" "PATCH" none none).2 (by decide) (by decide)
    (by decide) (by decide) (by decide) (by decide)

/-! ### Claim C9 -/

/-- C9: getSession is idempotent between lifecycle events: a second call
returns the same session and leaves the state unchanged; the call that
constructs the session registers exactly one new before-shutdown trigger
while a call that finds a stored session registers none and changes
nothing; after closeSession the stored session is None and the next
getSession constructs a fresh session. -/
theorem getSession_lifecycle (st : SessionState) :
    getSession (getSession st).2 = ((getSession st).1, (getSession st).2)
    ∧ (getSession st).2.session = some (getSession st).1
    ∧ (st.session = none →
        (getSession st).2.shutdownTriggers = st.shutdownTriggers + 1)
    ∧ (∀ s, st.session = some s → getSession st = (s, st))
    ∧ (closeSession st).session = none
    ∧ (∀ s, st.session = some s → s < st.nextId →
        (getSession (closeSession st)).1 = st.nextId
        ∧ (getSession (closeSession st)).1 ≠ s
        ∧ (getSession (closeSession st)).2.session = some (getSession (closeSession st)).1) := by
  match h : st.session with
  | none =>
    refine ⟨?_, ?_, ?_, ?_, ?_, ?_⟩
    · simp [getSession, h]
    · simp [getSession, h]
    · intro _
      simp [getSession, h]
    · intro s hs
      simp at hs
    · simp [closeSession, h]
    · intro s hs
      simp at hs
  | some s₀ =>
    refine ⟨?_, ?_, ?_, ?_, ?_, ?_⟩
    · simp [getSession, h]
    · simp [getSession, h]
    · intro hn
      simp at hn
    · intro s hs
      obtain rfl := Option.some.inj hs
      simp [getSession, h]
    · simp [closeSession, h]
    · intro s hs hlt
      obtain rfl := Option.some.inj hs
      refine ⟨by simp [getSession, closeSession, h], ?_, by simp [getSession, closeSession, h]⟩
      have : (getSession (closeSession st)).1 = st.nextId := by
        simp [getSession, closeSession, h]
      omega

/-- Witness for C9: a state holding session 0 is closed, and the following
getSession constructs the fresh session 1; on an empty state the
constructing call registers the shutdown trigger. -/
theorem getSession_lifecycle_witness :
    (getSession (closeSession (SessionState.mk (some 0) 1 1 []))).1 = 1
    ∧ (getSession (SessionState.mk none 0 0 [])).2.shutdownTriggers = 1 := by
  constructor
  · exact ((getSession_lifecycle (SessionState.mk (some 0) 1 1 [])).2.2.2.2.2
      0 rfl (by decide)).1
  · exact (getSession_lifecycle (SessionState.mk none 0 0 [])).2.2.1 rfl

/-! ### Claim C3 -/

/-- C3: for every response hop, the Status line goes to the normal-output
channel when the status code equals `requests.codes.ok` and to the
error-output channel otherwise, never to both. -/
theorem status_line_channel (r : Hop) :
    (r.status_code = requestsCodesOk →
      addStdout ("Status: " ++ toString r.status_code ++ "\n") ∈ log_response r
      ∧ addStderr ("Status: " ++ toString r.status_code ++ "\n") ∉ log_response r)
    ∧ (r.status_code ≠ requestsCodesOk →
      addStderr ("Status: " ++ toString r.status_code ++ "\n") ∈ log_response r
      ∧ addStdout ("Status: " ++ toString r.status_code ++ "\n") ∉ log_response r) := by
  constructor
  · intro hok
    refine ⟨?_, no_stderr_in_log_response_of_ok r hok _⟩
    have h := statusLineEvent_mem r
    unfold statusLineEvent at h
    rwa [if_pos hok] at h
  · intro hok
    refine ⟨?_, status_stdout_not_mem_of_not_ok r hok⟩
    have h := statusLineEvent_mem r
    unfold statusLineEvent at h
    rwa [if_neg hok] at h

/-- Witness for C3: status 200 is logged on the normal channel, status 404
on the error channel. -/
theorem status_line_channel_witness :
    addStdout ("Status: " ++ toString 200 ++ "\n")
      ∈ log_response (Hop.mk "u" 200 [] [] "hi")
    ∧ addStderr ("Status: " ++ toString 404 ++ "\n")
      ∈ log_response (Hop.mk "u" 404 [] [] "no") := by
  constructor
  · exact ((status_line_channel (Hop.mk "u" 200 [] [] "hi")).1 rfl).1
  · exact ((status_line_channel (Hop.mk "u" 404 [] [] "no")).2 (by decide)).1

/-! ### Claim C4 -/

/-- C4: a connection-level error is caught by the step: the result is
FAILURE, the description is not updated, the error-output writes are
exactly the one line carrying the failure detail, and no Status line of
any code is written to either output channel. -/
theorem connection_error_handling (cfg : HTTPStepCfg) (e : String) :
    (run cfg (ReqResult.connectionError e)).result = StepResult.FAILURE
    ∧ (run cfg (ReqResult.connectionError e)).descriptionDone = none
    ∧ (run cfg (ReqResult.connectionError e)).events.filter isStderrWrite
        = [addStderr ("An exception occurred while performing the request: " ++ e)]
    ∧ ∀ n : Nat,
        addStdout ("Status: " ++ toString n ++ "\n")
          ∉ (run cfg (ReqResult.connectionError e)).events
        ∧ addStderr ("Status: " ++ toString n ++ "\n")
          ∉ (run cfg (ReqResult.connectionError e)).events := by
  have hev : (run cfg (ReqResult.connectionError e)).events
      = preEvents cfg
        ++ [addStderr ("An exception occurred while performing the request: " ++ e)] := rfl
  refine ⟨rfl, rfl, ?_, ?_⟩
  · rw [hev, List.filter_append, filter_stderr_preEvents]
    simp [isStderrWrite, addStderr]
  · intro n
    constructor
    · intro hmem
      rw [hev] at hmem
      rcases List.mem_append.mp hmem with hpre | hone
      · rcases preEvents_shape cfg _ hpre with ⟨m, hm⟩ | ⟨t, ht⟩
        · simp [addStdout] at hm
        · simp [addStdout, addHeader] at ht
      · have h1 := List.mem_singleton.mp hone
        simp [addStdout, addStderr] at h1
    · intro hmem
      rw [hev] at hmem
      rcases List.mem_append.mp hmem with hpre | hone
      · rcases preEvents_shape cfg _ hpre with ⟨m, hm⟩ | ⟨t, ht⟩
        · simp [addStderr] at hm
        · simp [addStderr, addHeader] at ht
      · have h1 := List.mem_singleton.mp hone
        have h2 : ("Status: " ++ toString n ++ "\n")
            = "An exception occurred while performing the request: " ++ e := by
          simpa [addStderr] using h1
        exact absurd h2 (ne_of_head 'S' 'A' rfl rfl (by decide))

/-- Witness for C4 at a concrete configuration and failure message. -/
theorem connection_error_handling_witness :
    (run (HTTPStepCfg.mk "GET" "http://x" none none)
        (ReqResult.connectionError "boom")).result = StepResult.FAILURE
    ∧ (run (HTTPStepCfg.mk "GET" "http://x" none none)
        (ReqResult.connectionError "boom")).descriptionDone = none
    ∧ addStderr ("Status: " ++ toString 200 ++ "\n")
        ∉ (run (HTTPStepCfg.mk "GET" "http://x" none none)
            (ReqResult.connectionError "boom")).events := by
  have h := connection_error_handling (HTTPStepCfg.mk "GET" "http://x" none none) "boom"
  exact ⟨h.1, h.2.1, (h.2.2.2 200).2⟩

/-! ### Claim C10 -/

/-- Every Data block line is a header line whose text does not begin with
the letter of the Parameters title. -/
theorem dataSection_head (cfg : HTTPStepCfg) :
    ∀ e ∈ dataSection cfg, ∃ t, e = addHeader t ∧ t.data.head? ≠ some 'P' := by
  intro e he
  unfold dataSection at he
  split at he
  · simp at he
  · split at he
    · simp at he
    · rcases List.mem_cons.mp he with rfl | hmem
      · exact ⟨_, rfl, by decide⟩
      · rcases List.mem_map.mp hmem with ⟨kv, _, rfl⟩
        refine ⟨_, rfl, ?_⟩
        rw [show (kvLine kv).data.head? = some '\t' from rfl]
        decide
  · split at he
    · simp at he
    · rcases List.mem_cons.mp he with rfl | hmem
      · exact ⟨_, rfl, by decide⟩
      · rcases List.mem_singleton.mp hmem with rfl
        refine ⟨_, rfl, ?_⟩
        rw [show ∀ s : String, ("\t" ++ s ++ "\n").data.head? = some '\t' from fun _ => rfl]
        decide

/-- With an empty params mapping no Parameters title is written before the
request. -/
theorem params_header_not_mem_preEvents (cfg : HTTPStepCfg)
    (hp : cfg.params = some []) :
    addHeader "Parameters:\n" ∉ preEvents cfg := by
  intro h
  have hpe : paramsEvents cfg = [] := by simp [paramsEvents, hp]
  unfold preEvents at h
  rw [hpe] at h
  rcases List.mem_cons.mp h with h1 | h2
  · simp [addHeader] at h1
  rcases List.mem_cons.mp h2 with h3 | h4
  · have h5 : ("Parameters:\n" : String)
        = "Performing " ++ cfg.method ++ " request to " ++ cfg.url ++ "\n" := by
      simpa [addHeader] using h3
    exact absurd h5 (ne_of_second 'a' 'e' rfl rfl (by decide))
  rw [List.nil_append] at h4
  rcases dataSection_head cfg _ h4 with ⟨t, ht, hhd⟩
  have : ("Parameters:\n" : String) = t := by simpa [addHeader] using ht
  rw [← this] at hhd
  exact hhd rfl

/-- The Parameters title never occurs inside a hop section. -/
theorem params_header_not_mem_log_response (r : Hop) :
    addHeader "Parameters:\n" ∉ log_response r :=
  addHeader_not_mem_log_response r "Parameters:\n" (by decide) (by decide)
    (fun kv => ne_of_head 'P' '\t' rfl rfl (by decide))

/-- C10: with an empty params mapping no Parameters section is rendered
and the params value forwarded to the transport is the original empty
mapping, not a sorted list: the truthiness guard, not a None test, guards
the section. -/
theorem empty_params_forwarded (cfg : HTTPStepCfg) (res : ReqResult)
    (hp : cfg.params = some []) :
    (run cfg res).sentParams = some (SentParams.mapping [])
    ∧ addHeader "Parameters:\n" ∉ (run cfg res).events := by
  constructor
  · have hsp : (run cfg res).sentParams = sentParamsOf cfg := by
      cases res <;> rfl
    rw [hsp]
    simp [sentParamsOf, hp]
  · intro h
    cases res with
    | connectionError e =>
      have hev : (run cfg (ReqResult.connectionError e)).events
          = preEvents cfg
            ++ [addStderr ("An exception occurred while performing the request: " ++ e)] := rfl
      rw [hev] at h
      rcases List.mem_append.mp h with hpre | hone
      · exact params_header_not_mem_preEvents cfg hp hpre
      · have h1 := List.mem_singleton.mp hone
        simp [addHeader, addStderr] at h1
    | ok history r =>
      rcases run_ok_events_cases cfg history r _ h with
        hpre | ⟨_, hredir⟩ | ⟨rr, _, hsec⟩ | ⟨_, hrule⟩ | hfinal | hfin
      · exact params_header_not_mem_preEvents cfg hp hpre
      · simp [addHeader, addStdout] at hredir
      · exact params_header_not_mem_log_response rr hsec
      · simp [addHeader, addStdout] at hrule
      · exact params_header_not_mem_log_response r hfinal
      · simp [addHeader] at hfin

/-- Witness for C10: a GET whose params mapping is empty forwards the
empty mapping itself and leaves the Parameters title out of the log. -/
theorem empty_params_forwarded_witness :
    (run (HTTPStepCfg.mk "GET" "http://x" (some []) none)
        (ReqResult.ok [] (Hop.mk "u" 200 [] [] "hi"))).sentParams
      = some (SentParams.mapping [])
    ∧ addHeader "Parameters:\n"
        ∉ (run (HTTPStepCfg.mk "GET" "http://x" (some []) none)
            (ReqResult.ok [] (Hop.mk "u" 200 [] [] "hi"))).events :=
  empty_params_forwarded (HTTPStepCfg.mk "GET" "http://x" (some []) none)
    (ReqResult.ok [] (Hop.mk "u" 200 [] [] "hi")) rfl

/-! ### Claim C2 -/

theorem sortByKey_perm (m : List (String × String)) : (sortByKey m).Perm m :=
  List.perm_insertionSort keyLE m

theorem sortByKey_sorted (m : List (String × String)) :
    List.Sorted keyLE (sortByKey m) :=
  List.sorted_insertionSort keyLE m

/-- With pairwise distinct keys the sorted list is strictly ascending. -/
theorem sortByKey_strict (m : List (String × String))
    (hnd : (m.map Prod.fst).Nodup) :
    List.Pairwise keyLT (sortByKey m) := by
  have hperm : ((sortByKey m).map Prod.fst).Perm (m.map Prod.fst) :=
    (sortByKey_perm m).map Prod.fst
  have hnd' : ((sortByKey m).map Prod.fst).Nodup := hperm.nodup_iff.mpr hnd
  have hne : List.Pairwise (fun p q : String × String => p.1 ≠ q.1) (sortByKey m) :=
    List.pairwise_map.mp hnd'
  have hle : List.Pairwise keyLE (sortByKey m) := sortByKey_sorted m
  refine (hle.and hne).imp ?_
  intro p q hpq
  rcases hpq with ⟨h1, h2⟩
  by_cases hlt : pyStrLt p.1.data q.1.data = true
  · exact hlt
  · have heq : p.1.data = q.1.data :=
      pyStrLt_conn _ _ (by simpa using hlt) h1
    exact absurd (congrArg String.mk heq) h2

/-- Sorting is canonical: two presentations of the same mapping with
distinct keys sort to the same list. -/
theorem sortByKey_unique (m m' : List (String × String))
    (hnd : (m.map Prod.fst).Nodup) (hperm : m'.Perm m) :
    sortByKey m' = sortByKey m := by
  have hnd' : (m'.map Prod.fst).Nodup := (hperm.map Prod.fst).nodup_iff.mpr hnd
  have h1 : List.Pairwise keyLT (sortByKey m') := sortByKey_strict m' hnd'
  have h2 : List.Pairwise keyLT (sortByKey m) := sortByKey_strict m hnd
  have hp : (sortByKey m').Perm (sortByKey m) :=
    (sortByKey_perm m').trans (hperm.trans (sortByKey_perm m).symm)
  exact List.eq_of_perm_of_sorted hp h1 h2

theorem sortByKey_keys_strict (m : List (String × String))
    (hnd : (m.map Prod.fst).Nodup) :
    ((sortByKey m).map Prod.fst).Chain' pyLt := by
  have h : ((sortByKey m).map Prod.fst).Pairwise pyLt :=
    List.pairwise_map.mpr (sortByKey_strict m hnd)
  exact h.chain'

/-- C2: with a non-empty params mapping of distinct keys, the Parameters
block renders the key/value pairs of the sorted list contiguously in the
transcript, the sorted keys ascend strictly in the code-point order, the
sorted list is a permutation of the mapping and is independent of the
mapping's insertion order, and that same sorted list replaces the mapping
as the params value handed to the transport. -/
theorem params_rendered_sorted (cfg : HTTPStepCfg) (res : ReqResult)
    (m : List (String × String)) (hp : cfg.params = some m) (hne : m ≠ [])
    (hnd : (m.map Prod.fst).Nodup) :
    (∃ pre post, (run cfg res).events
        = pre ++ (addHeader "Parameters:\n"
            :: (sortByKey m).map (fun kv => addHeader (kvLine kv))) ++ post)
    ∧ ((sortByKey m).map Prod.fst).Chain' pyLt
    ∧ (sortByKey m).Perm m
    ∧ (run cfg res).sentParams = some (SentParams.sortedList (sortByKey m))
    ∧ (∀ m', m'.Perm m → sortByKey m' = sortByKey m) := by
  have hno : m.isEmpty = false := by
    cases m
    · exact absurd rfl hne
    · rfl
  have hpe : paramsEvents cfg
      = addHeader "Parameters:\n"
        :: (sortByKey m).map (fun kv => addHeader (kvLine kv)) := by
    simp [paramsEvents, hp, hno]
  obtain ⟨rest, hrest⟩ : ∃ rest, (run cfg res).events = preEvents cfg ++ rest := by
    cases res with
    | connectionError e => exact ⟨_, rfl⟩
    | ok history r =>
      exact ⟨(if history.isEmpty then []
          else addStdout (redirectedLine history.length)
            :: history.flatMap (fun rr => log_response rr ++ [addStdout ruleLine]))
          ++ (log_response r ++ [LogEvent.finish "log"]),
        by simp [run, List.append_assoc]⟩
  refine ⟨?_, sortByKey_keys_strict m hnd, sortByKey_perm m, ?_,
    fun m' hm' => sortByKey_unique m m' hnd hm'⟩
  · refine ⟨[LogEvent.addLog "log",
      addHeader ("Performing " ++ cfg.method ++ " request to " ++ cfg.url ++ "\n")],
      dataSection cfg ++ rest, ?_⟩
    rw [hrest]
    simp [preEvents, hpe]
  · have hsp : (run cfg res).sentParams = sentParamsOf cfg := by
      cases res <;> rfl
    rw [hsp]
    simp [sentParamsOf, hp, hno]

/-- Witness for C2: the mapping listing key "b" before key "a" is rendered
and forwarded sorted as "a" before "b". -/
theorem params_rendered_sorted_witness :
    (run (HTTPStepCfg.mk "GET" "http://x" (some [("b", "2"), ("a", "1")]) none)
        (ReqResult.ok [] (Hop.mk "u" 200 [] [] "hi"))).sentParams
      = some (SentParams.sortedList [("a", "1"), ("b", "2")])
    ∧ ((sortByKey [("b", "2"), ("a", "1")]).map Prod.fst).Chain' pyLt := by
  have h := params_rendered_sorted
    (HTTPStepCfg.mk "GET" "http://x" (some [("b", "2"), ("a", "1")]) none)
    (ReqResult.ok [] (Hop.mk "u" 200 [] [] "hi"))
    [("b", "2"), ("a", "1")] rfl (by decide) (by decide)
  refine ⟨?_, h.2.1⟩
  have hs := h.2.2.2.1
  rw [show sortByKey [("b", "2"), ("a", "1")] = [("a", "1"), ("b", "2")] from by decide] at hs
  exact hs

/-! ### Log-opening counts -/

/-- Boolean test for an `addLog` event of any name. -/
def isLogOpen : LogEvent → Bool := fun e =>
  match e with
  | LogEvent.addLog _ => true
  | _ => false

/-- Boolean test for an `addLog` event opening the log named "content". -/
def isContentOpen : LogEvent → Bool := fun e =>
  match e with
  | LogEvent.addLog n => n == "content"
  | _ => false

/-- How many logs a trace opens through the logging sink. -/
def countOpenedLogs (evs : List LogEvent) : Nat := evs.countP isLogOpen

/-- How many logs named "content" a trace opens. -/
def countContentLogs (evs : List LogEvent) : Nat := evs.countP isContentOpen

theorem isLogOpen_statusLineEvent (r : Hop) : isLogOpen (statusLineEvent r) = false := by
  by_cases hok : r.status_code = requestsCodesOk <;>
    simp [isLogOpen, statusLineEvent, hok, addStdout, addStderr]

theorem isContentOpen_statusLineEvent (r : Hop) :
    isContentOpen (statusLineEvent r) = false := by
  by_cases hok : r.status_code = requestsCodesOk <;>
    simp [isContentOpen, statusLineEvent, hok, addStdout, addStderr]

theorem countP_kvLines_eq_zero (p : LogEvent → Bool)
    (hp : ∀ t, p (addHeader t) = false) (l : List (String × String)) :
    (l.map fun kv => addHeader (kvLine kv)).countP p = 0 := by
  rw [List.countP_eq_zero]
  intro e he
  rcases List.mem_map.mp he with ⟨kv, _, rfl⟩
  simp [hp]

theorem countOpen_log_response (rr : Hop) : countOpenedLogs (log_response rr) = 1 := by
  unfold countOpenedLogs log_response
  rw [List.countP_cons]
  repeat rw [List.countP_append]
  rw [countP_kvLines_eq_zero isLogOpen (fun t => rfl) rr.request_headers,
    countP_kvLines_eq_zero isLogOpen (fun t => rfl) rr.response_headers]
  rw [show (List.countP isLogOpen [statusLineEvent rr]) = 0 from by
    simp [List.countP_cons, isLogOpen_statusLineEvent rr]]
  simp [List.countP_cons, isLogOpen, addHeader, addStdout]

theorem countContent_log_response (rr : Hop) :
    countContentLogs (log_response rr) = 1 := by
  unfold countContentLogs log_response
  rw [List.countP_cons]
  repeat rw [List.countP_append]
  rw [countP_kvLines_eq_zero isContentOpen (fun t => rfl) rr.request_headers,
    countP_kvLines_eq_zero isContentOpen (fun t => rfl) rr.response_headers]
  rw [show (List.countP isContentOpen [statusLineEvent rr]) = 0 from by
    simp [List.countP_cons, isContentOpen_statusLineEvent rr]]
  simp [List.countP_cons, isContentOpen, addHeader, addStdout]

theorem countP_paramsEvents_eq_zero (p : LogEvent → Bool)
    (hp : ∀ t, p (addHeader t) = false) (cfg : HTTPStepCfg) :
    (paramsEvents cfg).countP p = 0 := by
  rw [List.countP_eq_zero]
  intro e he
  rcases paramsEvents_shape cfg e he with ⟨t, rfl⟩
  simp [hp]

theorem countP_dataSection_eq_zero (p : LogEvent → Bool)
    (hp : ∀ t, p (addHeader t) = false) (cfg : HTTPStepCfg) :
    (dataSection cfg).countP p = 0 := by
  rw [List.countP_eq_zero]
  intro e he
  rcases dataSection_shape cfg e he with ⟨t, rfl⟩
  simp [hp]

theorem countOpen_preEvents (cfg : HTTPStepCfg) :
    countOpenedLogs (preEvents cfg) = 1 := by
  unfold countOpenedLogs preEvents
  rw [List.countP_cons, List.countP_cons, List.countP_append,
    countP_paramsEvents_eq_zero isLogOpen (fun t => rfl) cfg,
    countP_dataSection_eq_zero isLogOpen (fun t => rfl) cfg]
  rfl

theorem countContent_preEvents (cfg : HTTPStepCfg) :
    countContentLogs (preEvents cfg) = 0 := by
  unfold countContentLogs preEvents
  rw [List.countP_cons, List.countP_cons, List.countP_append,
    countP_paramsEvents_eq_zero isContentOpen (fun t => rfl) cfg,
    countP_dataSection_eq_zero isContentOpen (fun t => rfl) cfg]
  rfl

theorem countOpen_flatMap (l : List Hop) :
    (l.flatMap fun rr => log_response rr ++ [addStdout ruleLine]).countP isLogOpen
      = l.length := by
  induction l with
  | nil => rfl
  | cons rr rest ih =>
    rw [List.flatMap_cons, List.countP_append, List.countP_append, ih]
    have h1 : (log_response rr).countP isLogOpen = 1 := countOpen_log_response rr
    rw [h1]
    simp [isLogOpen, addStdout]
    omega

theorem countContent_flatMap (l : List Hop) :
    (l.flatMap fun rr => log_response rr ++ [addStdout ruleLine]).countP isContentOpen
      = l.length := by
  induction l with
  | nil => rfl
  | cons rr rest ih =>
    rw [List.flatMap_cons, List.countP_append, List.countP_append, ih]
    have h1 : (log_response rr).countP isContentOpen = 1 := countContent_log_response rr
    rw [h1]
    simp [isContentOpen, addStdout]
    omega

/-! ### Claim C8 -/

/-- C8 as stated is false: the source opens the log named "content" inside
`log_response`, once per response hop, so a run with one redirect hop
opens three logs, not two. -/
theorem two_logs_counterexample :
    countOpenedLogs (run (HTTPStepCfg.mk "GET" "http://x" none none)
        (ReqResult.ok [Hop.mk "u1" 301 [] [] "moved"] (Hop.mk "u2" 200 [] [] "hi"))).events
      = 3
    ∧ countOpenedLogs (run (HTTPStepCfg.mk "GET" "http://x" none none)
        (ReqResult.ok [Hop.mk "u1" 301 [] [] "moved"] (Hop.mk "u2" 200 [] [] "hi"))).events
      ≠ 2 := by
  constructor <;> decide

/-- C8 amended: a completed run with N redirect hops opens N + 2 logs in
total: the primary log named "log" once and the log named "content" once
per response hop (N + 1 times); each hop's body text is written verbatim
to a content log stream. -/
theorem logs_opened_per_hop (cfg : HTTPStepCfg) (history : List Hop) (r : Hop) :
    countOpenedLogs (run cfg (ReqResult.ok history r)).events = history.length + 2
    ∧ countContentLogs (run cfg (ReqResult.ok history r)).events = history.length + 1
    ∧ (∀ rr ∈ history, LogEvent.write "content" Channel.stdout rr.text
        ∈ (run cfg (ReqResult.ok history r)).events)
    ∧ LogEvent.write "content" Channel.stdout r.text
        ∈ (run cfg (ReqResult.ok history r)).events := by
  have hev : (run cfg (ReqResult.ok history r)).events
      = ((preEvents cfg
          ++ (if history.isEmpty then []
              else addStdout (redirectedLine history.length)
                :: history.flatMap (fun rr => log_response rr ++ [addStdout ruleLine])))
          ++ log_response r) ++ [LogEvent.finish "log"] := rfl
  have hblock : (if history.isEmpty then []
      else addStdout (redirectedLine history.length)
        :: history.flatMap (fun rr => log_response rr ++ [addStdout ruleLine])).countP
        isLogOpen = history.length := by
    by_cases hh : history.isEmpty
    · rw [if_pos hh]
      have : history = [] := by
        cases history
        · rfl
        · cases hh
      rw [this]
      rfl
    · rw [if_neg hh, List.countP_cons]
      rw [countOpen_flatMap]
      simp [isLogOpen, addStdout]
  have hblockc : (if history.isEmpty then []
      else addStdout (redirectedLine history.length)
        :: history.flatMap (fun rr => log_response rr ++ [addStdout ruleLine])).countP
        isContentOpen = history.length := by
    by_cases hh : history.isEmpty
    · rw [if_pos hh]
      have : history = [] := by
        cases history
        · rfl
        · cases hh
      rw [this]
      rfl
    · rw [if_neg hh, List.countP_cons]
      rw [countContent_flatMap]
      simp [isContentOpen, addStdout]
  have hmemfin : LogEvent.write "content" Channel.stdout r.text ∈ log_response r := by
    unfold log_response
    simp
  refine ⟨?_, ?_, ?_, ?_⟩
  · unfold countOpenedLogs
    rw [hev, List.countP_append, List.countP_append, List.countP_append, hblock]
    have h1 : (preEvents cfg).countP isLogOpen = 1 := countOpen_preEvents cfg
    have h2 : (log_response r).countP isLogOpen = 1 := countOpen_log_response r
    rw [h1, h2]
    simp [isLogOpen]
    omega
  · unfold countContentLogs
    rw [hev, List.countP_append, List.countP_append, List.countP_append, hblockc]
    have h1 : (preEvents cfg).countP isContentOpen = 0 := countContent_preEvents cfg
    have h2 : (log_response r).countP isContentOpen = 1 := countContent_log_response r
    rw [h1, h2]
    simp [isContentOpen]
  · intro rr hrr
    have hne : history.isEmpty = false := by
      cases history
      · cases hrr
      · rfl
    have hmem : LogEvent.write "content" Channel.stdout rr.text ∈ log_response rr := by
      unfold log_response
      simp
    rw [hev, if_neg (by simp [hne])]
    refine List.mem_append_left _ (List.mem_append_left _ (List.mem_append_right _ ?_))
    refine List.mem_cons_of_mem _ (List.mem_flatMap.mpr ⟨rr, hrr, ?_⟩)
    exact List.mem_append_left _ hmem
  · rw [hev]
    exact List.mem_append_left _ (List.mem_append_right _ hmemfin)

/-- Witness for C8 amended, at one concrete redirect hop: three logs are
opened and the hop's body reaches the content log. -/
theorem logs_opened_per_hop_witness :
    countOpenedLogs (run (HTTPStepCfg.mk "GET" "http://x" none none)
        (ReqResult.ok [Hop.mk "u1" 301 [] [] "m"] (Hop.mk "u2" 200 [] [] "h"))).events = 3
    ∧ LogEvent.write "content" Channel.stdout "m"
        ∈ (run (HTTPStepCfg.mk "GET" "http://x" none none)
            (ReqResult.ok [Hop.mk "u1" 301 [] [] "m"] (Hop.mk "u2" 200 [] [] "h"))).events := by
  have h := logs_opened_per_hop (HTTPStepCfg.mk "GET" "http://x" none none)
    [Hop.mk "u1" 301 [] [] "m"] (Hop.mk "u2" 200 [] [] "h")
  refine ⟨by simpa using h.1, ?_⟩
  have hm := h.2.2.1 (Hop.mk "u1" 301 [] [] "m") (List.mem_singleton.mpr rfl)
  simpa using hm

/-! ### Claim C6 -/

/-- C6: with N redirect hops the transcript opens with the redirect count
line and contains the N hop sections in chronological order, each followed
by the rule of 60 equals signs, then the final response section; the
content-log openings count the sections as N + 1.  With no redirects no
redirect count line of any N and no rule appears. -/
theorem redirect_transcript (cfg : HTTPStepCfg) (history : List Hop) (r : Hop) :
    (history ≠ [] →
      (run cfg (ReqResult.ok history r)).events
        = ((preEvents cfg
            ++ (addStdout (redirectedLine history.length)
              :: history.flatMap (fun rr => log_response rr ++ [addStdout ruleLine])))
            ++ log_response r) ++ [LogEvent.finish "log"]
      ∧ countContentLogs (run cfg (ReqResult.ok history r)).events = history.length + 1
      ∧ ruleLine = String.mk (List.replicate 60 '=') ++ "\n")
    ∧ (history = [] →
      (run cfg (ReqResult.ok history r)).events
        = (preEvents cfg ++ log_response r) ++ [LogEvent.finish "log"]
      ∧ (∀ n, addStdout (redirectedLine n) ∉ (run cfg (ReqResult.ok history r)).events)
      ∧ addStdout ruleLine ∉ (run cfg (ReqResult.ok history r)).events) := by
  constructor
  · intro hne
    have hie : history.isEmpty = false := by
      cases history
      · exact absurd rfl hne
      · rfl
    have hev : (run cfg (ReqResult.ok history r)).events
        = ((preEvents cfg
            ++ (addStdout (redirectedLine history.length)
              :: history.flatMap (fun rr => log_response rr ++ [addStdout ruleLine])))
            ++ log_response r) ++ [LogEvent.finish "log"] := by
      rw [show (run cfg (ReqResult.ok history r)).events
          = ((preEvents cfg
              ++ (if history.isEmpty then []
                  else addStdout (redirectedLine history.length)
                    :: history.flatMap (fun rr => log_response rr ++ [addStdout ruleLine])))
              ++ log_response r) ++ [LogEvent.finish "log"] from rfl]
      rw [if_neg (by simp [hie])]
    refine ⟨hev, ?_, rfl⟩
    unfold countContentLogs
    rw [hev, List.countP_append, List.countP_append, List.countP_append,
      List.countP_cons, countContent_flatMap]
    have h1 : (preEvents cfg).countP isContentOpen = 0 := countContent_preEvents cfg
    have h2 : (log_response r).countP isContentOpen = 1 := countContent_log_response r
    rw [h1, h2]
    simp [isContentOpen, addStdout, List.countP_cons]
  · intro hemp
    subst hemp
    have hev0 : (run cfg (ReqResult.ok [] r)).events
        = ((preEvents cfg ++ ([] : List LogEvent)) ++ log_response r)
          ++ [LogEvent.finish "log"] := rfl
    refine ⟨by rw [hev0, List.append_nil], ?_, ?_⟩
    · intro n hmem
      rcases run_ok_events_cases cfg [] r _ hmem with
        hpre | ⟨hne, _⟩ | ⟨rr, hrr, _⟩ | ⟨hne, _⟩ | hfinal | hfin
      · rcases preEvents_shape cfg _ hpre with ⟨nm, hm⟩ | ⟨t, ht⟩
        · simp [addStdout] at hm
        · simp [addStdout, addHeader] at ht
      · exact hne rfl
      · cases hrr
      · exact hne rfl
      · refine addStdout_not_mem_log_response r (redirectedLine n) ?_ ?_ ?_ hfinal
        · exact ne_of_head '\n' 'U' rfl rfl (by decide)
        · exact ne_of_head '\n' 'S' rfl rfl (by decide)
        · exact ne_of_head '\n' ' ' rfl rfl (by decide)
      · simp [addStdout] at hfin
    · intro hmem
      rcases run_ok_events_cases cfg [] r _ hmem with
        hpre | ⟨hne, _⟩ | ⟨rr, hrr, _⟩ | ⟨hne, _⟩ | hfinal | hfin
      · rcases preEvents_shape cfg _ hpre with ⟨nm, hm⟩ | ⟨t, ht⟩
        · simp [addStdout] at hm
        · simp [addStdout, addHeader] at ht
      · exact hne rfl
      · cases hrr
      · exact hne rfl
      · refine addStdout_not_mem_log_response r ruleLine ?_ ?_ ?_ hfinal
        · exact ne_of_head '=' 'U' rfl rfl (by decide)
        · exact ne_of_head '=' 'S' rfl rfl (by decide)
        · exact ne_of_head '=' ' ' rfl rfl (by decide)
      · simp [addStdout] at hfin

/-- Witness for C6 at two concrete redirect hops and at zero hops. -/
theorem redirect_transcript_witness :
    countContentLogs (run (HTTPStepCfg.mk "GET" "http://x" none none)
        (ReqResult.ok [Hop.mk "u1" 301 [] [] "a", Hop.mk "u2" 302 [] [] "b"]
          (Hop.mk "u3" 200 [] [] "hi"))).events = 3
    ∧ addStdout ruleLine
        ∉ (run (HTTPStepCfg.mk "GET" "http://x" none none)
            (ReqResult.ok [] (Hop.mk "u3" 200 [] [] "hi"))).events := by
  constructor
  · have h := (redirect_transcript (HTTPStepCfg.mk "GET" "http://x" none none)
      [Hop.mk "u1" 301 [] [] "a", Hop.mk "u2" 302 [] [] "b"]
      (Hop.mk "u3" 200 [] [] "hi")).1 (by decide)
    simpa using h.2.1
  · exact ((redirect_transcript (HTTPStepCfg.mk "GET" "http://x" none none) []
      (Hop.mk "u3" 200 [] [] "hi")).2 rfl).2.2

/-! ### Claim C7 -/

/-- C7: a truthy dict data value renders the Data block with one key/value
line per pair in the dict's iteration order, unsorted; a truthy non-dict
data value renders as a single raw line. -/
theorem data_section_rendering (cfg : HTTPStepCfg) (res : ReqResult) :
    (∀ kvs, cfg.data = some (ReqData.dict kvs) → kvs ≠ [] →
      ∃ pre post, (run cfg res).events
        = pre ++ (addHeader "Data:\n" :: kvs.map (fun kv => addHeader (kvLine kv))) ++ post)
    ∧ (∀ s, cfg.data = some (ReqData.str s) → s ≠ "" →
      ∃ pre post, (run cfg res).events
        = pre ++ [addHeader "Data:\n", addHeader ("\t" ++ s ++ "\n")] ++ post) := by
  obtain ⟨rest, hrest⟩ : ∃ rest, (run cfg res).events = preEvents cfg ++ rest := by
    cases res with
    | connectionError e => exact ⟨_, rfl⟩
    | ok history r =>
      exact ⟨(if history.isEmpty then []
          else addStdout (redirectedLine history.length)
            :: history.flatMap (fun rr => log_response rr ++ [addStdout ruleLine]))
          ++ (log_response r ++ [LogEvent.finish "log"]),
        by simp [run, List.append_assoc]⟩
  constructor
  · intro kvs hd hne
    have hno : kvs.isEmpty = false := by
      cases kvs
      · exact absurd rfl hne
      · rfl
    have hds : dataSection cfg
        = addHeader "Data:\n" :: kvs.map (fun kv => addHeader (kvLine kv)) := by
      simp [dataSection, hd, hno]
    refine ⟨[LogEvent.addLog "log",
      addHeader ("Performing " ++ cfg.method ++ " request to " ++ cfg.url ++ "\n")]
      ++ paramsEvents cfg, rest, ?_⟩
    rw [hrest]
    simp [preEvents, hds]
  · intro s hd hne
    have hno : s.isEmpty = false := by
      rw [Bool.eq_false_iff]
      intro hh
      exact hne ((String.isEmpty_iff s).mp hh)
    have hds : dataSection cfg = [addHeader "Data:\n", addHeader ("\t" ++ s ++ "\n")] := by
      simp [dataSection, hd, hno]
    refine ⟨[LogEvent.addLog "log",
      addHeader ("Performing " ++ cfg.method ++ " request to " ++ cfg.url ++ "\n")]
      ++ paramsEvents cfg, rest, ?_⟩
    rw [hrest]
    simp [preEvents, hds]

/-- Witness for C7: a dict given with key "b" before key "a" renders in
exactly that unsorted order, and a plain string renders as one raw line. -/
theorem data_section_rendering_witness :
    (∃ pre post,
      (run (HTTPStepCfg.mk "POST" "http://x" none
          (some (ReqData.dict [("b", "2"), ("a", "1")])))
        (ReqResult.ok [] (Hop.mk "u" 200 [] [] "hi"))).events
      = pre ++ (addHeader "Data:\n"
          :: [("b", "2"), ("a", "1")].map (fun kv => addHeader (kvLine kv))) ++ post)
    ∧ (∃ pre post,
      (run (HTTPStepCfg.mk "POST" "http://x" none (some (ReqData.str "payload")))
        (ReqResult.ok [] (Hop.mk "u" 200 [] [] "hi"))).events
      = pre ++ [addHeader "Data:\n", addHeader ("\t" ++ "payload" ++ "\n")] ++ post) := by
  constructor
  · exact (data_section_rendering (HTTPStepCfg.mk "POST" "http://x" none
      (some (ReqData.dict [("b", "2"), ("a", "1")])))
      (ReqResult.ok [] (Hop.mk "u" 200 [] [] "hi"))).1
      [("b", "2"), ("a", "1")] rfl (by decide)
  · exact (data_section_rendering (HTTPStepCfg.mk "POST" "http://x" none
      (some (ReqData.str "payload")))
      (ReqResult.ok [] (Hop.mk "u" 200 [] [] "hi"))).2 "payload" rfl (by decide)

end HttpOldstyle
